import Mathlib

/-!
Shallow embedding of `src/email_send/emailsend.py` (a batch welcome-email
sender): the user collection is a list of documents, MongoDB / SMTP / file
system effects are explicit oracles, and each code path of the script is
translated into a pure Lean function.  A process exit raised by `sys.exit`
is modelled as an explicit `exit` outcome that propagates to the top level
(`SystemExit` derives from `BaseException`, so the `except Exception`
handlers in `main` do not catch it).
-/

set_option autoImplicit false
set_option linter.unusedVariables false

namespace EmailSend

/-- A document of the `users` collection.  `emailsend.py` reads the fields
`_id`, `userId`, `email`, `firstName` and `welcome_email_sent`; an absent
field is `none` (Python `dict.get` returns `None`). -/
structure UserRecord where
  _id : Nat
  userId : Option String
  email : Option String
  firstName : Option String
  welcome_email_sent : Option Bool
  deriving DecidableEq, Repr

/-- Python truthiness test `not x` for an optional string: `None` and the
empty string are falsy. -/
def optStrFalsy : Option String → Bool
  | none => true
  | some s => s.isEmpty

/-- The Mongo query of `process_users` line 100:
`{$or: [{welcome_email_sent: {$exists: False}}, {welcome_email_sent: False}]}` —
a document matches when the flag is absent or `False`. -/
def pendingQuery (u : UserRecord) : Bool :=
  match u.welcome_email_sent with
  | none => true
  | some b => !b

/-- `update_one({'_id': uid}, {'$set': {'welcome_email_sent': True}})`
(lines 129-132): sets the flag of the first document whose `_id` matches;
all other fields and documents are untouched. -/
def update_one_markSent (uid : Nat) : List UserRecord → List UserRecord
  | [] => []
  | u :: rest =>
    if u._id = uid then { u with welcome_email_sent := some true } :: rest
    else u :: update_one_markSent uid rest

/-- Whether `pat` is a prefix of the second list. -/
def isPrefixChars : List Char → List Char → Bool
  | [], _ => true
  | _ :: _, [] => false
  | a :: as, b :: bs => a == b && isPrefixChars as bs

/-- Left-to-right, non-overlapping replacement of the occurrences of `pat`
by `rep`; the fuel argument (instantiated with the list length) only makes
the recursion structural. -/
def replaceCharsAux (pat rep : List Char) : Nat → List Char → List Char
  | 0, l => l
  | _ + 1, [] => []
  | fuel + 1, c :: cs =>
    if isPrefixChars pat (c :: cs) && !pat.isEmpty then
      rep ++ replaceCharsAux pat rep fuel (List.drop (pat.length - 1) cs)
    else c :: replaceCharsAux pat rep fuel cs

/-- Replace every occurrence of `pat` in `l` by `rep`. -/
def replaceChars (pat rep l : List Char) : List Char :=
  replaceCharsAux pat rep l.length l

/-- Whether `pat` occurs as a contiguous substring. -/
def hasInfixChars (pat : List Char) : List Char → Bool
  | [] => isPrefixChars pat []
  | b :: bs => isPrefixChars pat (b :: bs) || hasInfixChars pat bs

/-- `pat` occurs as a contiguous substring of `s`. -/
def strContains (s pat : String) : Bool := hasInfixChars pat.toList s.toList

/-- `html_template.format(first_name=..., year=...)` (line 65): on a
template whose only replacement fields are `{first_name}` and `{year}`
(and which contains no other brace), Python `str.format` substitutes the
two fields, which is this replacement. -/
def renderTemplate (template first_name : String) (year : Nat) : String :=
  String.mk (replaceChars "{year}".toList (toString year).toList
    (replaceChars "{first_name}".toList first_name.toList template.toList))

/-- Modelled from the spec: the file `templates/welcome_email_template.html`
read by `load_email_template` is not part of `src/`; per spec §4.1/§6 it is a
UTF-8 HTML document containing exactly the two named substitution points
`first_name` and `year`. -/
def welcome_email_template : String :=
  "<html><body><p>Hi {first_name}, welcome to WildVision!</p><p>&copy; {year} WildVision</p></body></html>"

/-- The external state one call of `send_welcome_email` sees: the contents of
the template file if it exists, the `Exception`-derived error the SMTP block
raises if any (as caught by `except Exception`, line 83), and the ambient
`datetime.now().year`. -/
structure SmtpEnv where
  template : Option String
  smtpError : Option String
  year : Nat
  deriving DecidableEq, Repr

/-- Outcome of calling one Python function: a returned value, or a process
exit raised inside the call via `sys.exit`. -/
inductive CallResult (α : Type) where
  | ret (a : α)
  | exit (code : Nat)
  deriving DecidableEq, Repr

/-- `true` when the call returned a value (did not terminate the process). -/
def CallResult.isRet {α : Type} : CallResult α → Bool
  | .ret _ => true
  | .exit _ => false

/-- `load_email_template` (lines 50-57): returns the file contents, or logs
and calls `sys.exit(1)` on `FileNotFoundError`. -/
def load_email_template (env : SmtpEnv) : CallResult String :=
  match env.template with
  | some t => CallResult.ret t
  | none => CallResult.exit 1

/-- `send_welcome_email` (lines 60-85): loads the template (fatal exit if the
file is missing), renders it, then transmits over SMTP inside
`try ... except Exception`, returning `True` on success and `False` on any
caught error. -/
def send_welcome_email (env : SmtpEnv) (to_email first_name : String) : CallResult Bool :=
  match load_email_template env with
  | .exit c => CallResult.exit c
  | .ret t =>
    let _html_content := renderTemplate t first_name env.year
    match env.smtpError with
    | none => CallResult.ret true
    | some _ => CallResult.ret false

/-- Observable actions of one process run.  `sendAttempt` is a call of
`send_welcome_email` (`uid = none` for the test-mode send, which has no user
document); `queryCount`, `queryFind` and `markUpdate` are the operations
against the user collection; `warnSkip`, `sendFailure` and `markFailure`
are the per-user log lines of `process_users`. -/
inductive Event where
  | queryCount
  | queryFind
  | warnSkip (uid : Nat)
  | sendAttempt (uid : Option Nat) (toAddr first_name : String)
  | sendFailure (uid : Nat)
  | markUpdate (uid : Nat)
  | markFailure (uid : Nat)
  deriving DecidableEq, Repr

/-- Events that touch the user store (queries and updates). -/
def Event.isStoreEvent : Event → Bool
  | .queryCount => true
  | .queryFind => true
  | .markUpdate _ => true
  | _ => false

/-- Result of running (part of) a poll cycle: the emitted events, the user
collection afterwards, and `some code` when `sys.exit code` was raised. -/
structure CycleOut where
  events : List Event
  store : List UserRecord
  earlyExit : Option Nat
  deriving DecidableEq, Repr

/-- The `for user in users_to_email` loop of `process_users` (lines 116-137).
`sendEnv cycle email` is the external state of the `send_welcome_email` call
for recipient `email` during poll cycle `cycle`; `markOk cycle uid` tells
whether the `update_one` for `uid` succeeds (line 134 catches its errors).
The candidate list is the point-in-time snapshot returned by `find`; updates
made during the loop mutate the collection `st`, not the snapshot. -/
def processLoop (sendEnv : Nat → String → SmtpEnv) (markOk : Nat → Nat → Bool)
    (cycle : Nat) : List UserRecord → List UserRecord → CycleOut
  | [], st => ⟨[], st, none⟩
  | user :: rest, st =>
    let first_name := user.firstName.getD "User"
    if optStrFalsy user.email then
      let out := processLoop sendEnv markOk cycle rest st
      ⟨Event.warnSkip user._id :: out.events, out.store, out.earlyExit⟩
    else
      let email := user.email.getD ""
      match send_welcome_email (sendEnv cycle email) email first_name with
      | .exit c => ⟨[Event.sendAttempt (some user._id) email first_name], st, some c⟩
      | .ret true =>
        if markOk cycle user._id then
          let out := processLoop sendEnv markOk cycle rest (update_one_markSent user._id st)
          ⟨Event.sendAttempt (some user._id) email first_name ::
             Event.markUpdate user._id :: out.events, out.store, out.earlyExit⟩
        else
          let out := processLoop sendEnv markOk cycle rest st
          ⟨Event.sendAttempt (some user._id) email first_name ::
             Event.markFailure user._id :: out.events, out.store, out.earlyExit⟩
      | .ret false =>
        let out := processLoop sendEnv markOk cycle rest st
        ⟨Event.sendAttempt (some user._id) email first_name ::
           Event.sendFailure user._id :: out.events, out.store, out.earlyExit⟩

/-- `process_users` (lines 96-137): count the pending users (early return on
zero), fetch them, then run the per-user loop.  When `count_documents` or
`find` raises (`queryOk = false`), the `except` block logs and calls
`sys.exit(1)` (line 114). -/
def process_users (queryOk : Bool) (sendEnv : Nat → String → SmtpEnv)
    (markOk : Nat → Nat → Bool) (cycle : Nat) (st : List UserRecord) : CycleOut :=
  if queryOk then
    if (st.filter pendingQuery).length = 0 then ⟨[Event.queryCount], st, none⟩
    else
      let users_to_email := st.filter pendingQuery
      let out := processLoop sendEnv markOk cycle users_to_email st
      ⟨Event.queryCount :: Event.queryFind :: out.events, out.store, out.earlyExit⟩
  else ⟨[Event.queryCount], st, some 1⟩

/-- How the unbounded `while True` service loop (lines 169-179) ends:
a `KeyboardInterrupt` raised during the sleep after cycle `k` (caught at
line 174, exit 0), or an unexpected `Exception` raised at the start of
cycle `k` before any of its work (caught at line 177, exit 1). -/
inductive LoopFate where
  | interrupted (k : Nat)
  | unexpected (k : Nat)
  deriving DecidableEq, Repr

/-- The whole external world one run of the script interacts with:
whether the initial `MongoClient` setup (lines 155-165) raises, whether the
queries of cycle `i` succeed, the per-cycle SMTP/template environment, the
per-cycle `update_one` outcomes, and how the service loop ends. -/
structure World where
  connectOk : Bool
  queryOk : Nat → Bool
  sendEnv : Nat → String → SmtpEnv
  markOk : Nat → Nat → Bool
  fate : LoopFate

/-- Runs `n` consecutive poll cycles starting at cycle index `start`,
threading the user collection through; stops early when a cycle raises
`SystemExit` (whose code is then reported in `earlyExit`). -/
def runCycles (w : World) (start : Nat) : Nat → List UserRecord → CycleOut
  | 0, st => ⟨[], st, none⟩
  | Nat.succ m, st =>
    let c := process_users (w.queryOk start) w.sendEnv w.markOk start st
    match c.earlyExit with
    | some code => ⟨c.events, c.store, some code⟩
    | none =>
      let r := runCycles w (start + 1) m c.store
      ⟨c.events ++ r.events, r.store, r.earlyExit⟩

/-- Result of a whole process run: the exit code of the interpreter, the
events performed, and the final state of the user collection. -/
structure ProgramOut where
  exitCode : Nat
  events : List Event
  store : List UserRecord
  deriving DecidableEq, Repr

/-- The service-mode loop of `main` (lines 167-179).  A `SystemExit` raised
inside a cycle (query failure, missing template) passes through both
`except` clauses, so its code becomes the process exit code; otherwise a
`KeyboardInterrupt` during a sleep exits 0 and an unexpected `Exception`
exits 1. -/
def serviceMode (w : World) (st : List UserRecord) : ProgramOut :=
  match w.fate with
  | .interrupted k =>
    let r := runCycles w 0 (k + 1) st
    ⟨r.earlyExit.getD 0, r.events, r.store⟩
  | .unexpected k =>
    let r := runCycles w 0 k st
    ⟨r.earlyExit.getD 1, r.events, r.store⟩

/-- The environment variables the module reads at import time
(lines 33-37); `none` models an unset variable. -/
structure Config where
  MONGODB_URI : Option String
  MONGODB_DATABASE : Option String
  GMAIL_USER : Option String
  GMAIL_APP_PASSWORD : Option String
  FROM_NAME : Option String
  deriving DecidableEq, Repr

/-- The module-level validation (lines 39-46): `sys.exit(1)` when
`MONGODB_URI` is falsy, or when `GMAIL_USER` or `GMAIL_APP_PASSWORD` is
falsy.  Runs at import, before `main`, in every mode. -/
def validateEnv (c : Config) : Option Nat :=
  if optStrFalsy c.MONGODB_URI then some 1
  else if optStrFalsy c.GMAIL_USER || optStrFalsy c.GMAIL_APP_PASSWORD then some 1
  else none

/-- The parsed command-line arguments (lines 142-146). -/
structure Args where
  test : Bool
  test_email : Option String
  interval : Nat
  deriving DecidableEq, Repr

/-- `send_test_email` (lines 87-94): one call of `send_welcome_email` with
the placeholder name `"Test User"`; the boolean result is only logged. -/
def send_test_email (env : SmtpEnv) (test_email : String) : CallResult Bool :=
  send_welcome_email env test_email "Test User"

/-- One whole process run: module import (environment validation), then
`main` (lines 140-179).  Test mode never constructs the Mongo client; a
missing `--test-email` is `sys.exit(1)`; after `send_test_email` returns,
`main` falls off the end and the interpreter exits 0 whatever the boolean
was.  Service mode connects (exit 1 on failure) and enters the loop. -/
def programRun (cfg : Config) (args : Args) (w : World) (st : List UserRecord) : ProgramOut :=
  match validateEnv cfg with
  | some code => ⟨code, [], st⟩
  | none =>
    if args.test then
      match args.test_email with
      | none => ⟨1, [], st⟩
      | some addr =>
        match send_test_email (w.sendEnv 0 addr) addr with
        | .exit c => ⟨c, [Event.sendAttempt none addr "Test User"], st⟩
        | .ret _ => ⟨0, [Event.sendAttempt none addr "Test User"], st⟩
    else
      if w.connectOk then serviceMode w st
      else ⟨1, [], st⟩

/-! ### Unfolding equations for the per-user loop -/

theorem processLoop_nil (sendEnv : Nat → String → SmtpEnv) (markOk : Nat → Nat → Bool)
    (cycle : Nat) (st : List UserRecord) :
    processLoop sendEnv markOk cycle [] st = ⟨[], st, none⟩ := rfl

theorem processLoop_cons_falsy (sendEnv : Nat → String → SmtpEnv) (markOk : Nat → Nat → Bool)
    (cycle : Nat) (user : UserRecord) (rest st : List UserRecord)
    (hf : optStrFalsy user.email = true) :
    processLoop sendEnv markOk cycle (user :: rest) st =
      ⟨Event.warnSkip user._id :: (processLoop sendEnv markOk cycle rest st).events,
       (processLoop sendEnv markOk cycle rest st).store,
       (processLoop sendEnv markOk cycle rest st).earlyExit⟩ := by
  simp only [processLoop, hf, if_true]

theorem processLoop_cons_exit (sendEnv : Nat → String → SmtpEnv) (markOk : Nat → Nat → Bool)
    (cycle : Nat) (user : UserRecord) (rest st : List UserRecord) (k : Nat)
    (hf : optStrFalsy user.email = false)
    (hs : send_welcome_email (sendEnv cycle (user.email.getD "")) (user.email.getD "")
            (user.firstName.getD "User") = CallResult.exit k) :
    processLoop sendEnv markOk cycle (user :: rest) st =
      ⟨[Event.sendAttempt (some user._id) (user.email.getD "") (user.firstName.getD "User")],
       st, some k⟩ := by
  simp only [processLoop, hf, Bool.false_eq_true, if_false, hs]

theorem processLoop_cons_sendfail (sendEnv : Nat → String → SmtpEnv) (markOk : Nat → Nat → Bool)
    (cycle : Nat) (user : UserRecord) (rest st : List UserRecord)
    (hf : optStrFalsy user.email = false)
    (hs : send_welcome_email (sendEnv cycle (user.email.getD "")) (user.email.getD "")
            (user.firstName.getD "User") = CallResult.ret false) :
    processLoop sendEnv markOk cycle (user :: rest) st =
      ⟨Event.sendAttempt (some user._id) (user.email.getD "") (user.firstName.getD "User") ::
         Event.sendFailure user._id :: (processLoop sendEnv markOk cycle rest st).events,
       (processLoop sendEnv markOk cycle rest st).store,
       (processLoop sendEnv markOk cycle rest st).earlyExit⟩ := by
  simp only [processLoop, hf, Bool.false_eq_true, if_false, hs]

theorem processLoop_cons_markok (sendEnv : Nat → String → SmtpEnv) (markOk : Nat → Nat → Bool)
    (cycle : Nat) (user : UserRecord) (rest st : List UserRecord)
    (hf : optStrFalsy user.email = false)
    (hs : send_welcome_email (sendEnv cycle (user.email.getD "")) (user.email.getD "")
            (user.firstName.getD "User") = CallResult.ret true)
    (hm : markOk cycle user._id = true) :
    processLoop sendEnv markOk cycle (user :: rest) st =
      ⟨Event.sendAttempt (some user._id) (user.email.getD "") (user.firstName.getD "User") ::
         Event.markUpdate user._id ::
         (processLoop sendEnv markOk cycle rest (update_one_markSent user._id st)).events,
       (processLoop sendEnv markOk cycle rest (update_one_markSent user._id st)).store,
       (processLoop sendEnv markOk cycle rest (update_one_markSent user._id st)).earlyExit⟩ := by
  simp only [processLoop, hf, Bool.false_eq_true, if_false, hs, hm, if_true]

theorem processLoop_cons_markfail (sendEnv : Nat → String → SmtpEnv) (markOk : Nat → Nat → Bool)
    (cycle : Nat) (user : UserRecord) (rest st : List UserRecord)
    (hf : optStrFalsy user.email = false)
    (hs : send_welcome_email (sendEnv cycle (user.email.getD "")) (user.email.getD "")
            (user.firstName.getD "User") = CallResult.ret true)
    (hm : markOk cycle user._id = false) :
    processLoop sendEnv markOk cycle (user :: rest) st =
      ⟨Event.sendAttempt (some user._id) (user.email.getD "") (user.firstName.getD "User") ::
         Event.markFailure user._id :: (processLoop sendEnv markOk cycle rest st).events,
       (processLoop sendEnv markOk cycle rest st).store,
       (processLoop sendEnv markOk cycle rest st).earlyExit⟩ := by
  simp only [processLoop, hf, Bool.false_eq_true, if_false, hs, hm]

/-! ### Store evolution: the only write the system ever performs -/

/-- A single record either is unchanged or has its flag set to `true` with
every other field kept (the shape of the one `update_one` of the script). -/
def recStep (a b : UserRecord) : Prop :=
  b = a ∨ b = { a with welcome_email_sent := some true }

/-- The collection evolves pointwise by `recStep`: no record is added,
removed or reordered, and each record at most has its flag set to `true`. -/
inductive StoreEvolves : List UserRecord → List UserRecord → Prop
  | nil : StoreEvolves [] []
  | cons {a b : UserRecord} {l l' : List UserRecord} :
      recStep a b → StoreEvolves l l' → StoreEvolves (a :: l) (b :: l')

theorem recStep_refl (a : UserRecord) : recStep a a := Or.inl rfl

theorem recStep_trans {a b c : UserRecord} (h1 : recStep a b) (h2 : recStep b c) :
    recStep a c := by
  rcases h1 with rfl | rfl
  · exact h2
  · rcases h2 with rfl | rfl
    · exact Or.inr rfl
    · exact Or.inr rfl

theorem storeEvolves_refl (l : List UserRecord) : StoreEvolves l l := by
  induction l with
  | nil => exact .nil
  | cons a l ih => exact .cons (recStep_refl a) ih

theorem storeEvolves_trans {l1 l2 l3 : List UserRecord}
    (h1 : StoreEvolves l1 l2) (h2 : StoreEvolves l2 l3) : StoreEvolves l1 l3 := by
  induction h1 generalizing l3 with
  | nil => exact h2
  | cons hr _ ih =>
    cases h2 with
    | cons hr2 ht2 => exact .cons (recStep_trans hr hr2) (ih ht2)

theorem storeEvolves_update_one (uid : Nat) (st : List UserRecord) :
    StoreEvolves st (update_one_markSent uid st) := by
  induction st with
  | nil => exact .nil
  | cons u rest ih =>
    by_cases h : u._id = uid
    · simp only [update_one_markSent, if_pos h]
      exact .cons (Or.inr rfl) (storeEvolves_refl rest)
    · simp only [update_one_markSent, if_neg h]
      exact .cons (recStep_refl u) ih

theorem storeEvolves_processLoop (sendEnv : Nat → String → SmtpEnv)
    (markOk : Nat → Nat → Bool) (cycle : Nat) (cs st : List UserRecord) :
    StoreEvolves st (processLoop sendEnv markOk cycle cs st).store := by
  induction cs generalizing st with
  | nil => exact storeEvolves_refl st
  | cons user rest ih =>
    cases hf : optStrFalsy user.email with
    | true =>
      rw [processLoop_cons_falsy sendEnv markOk cycle user rest st hf]
      exact ih st
    | false =>
      cases hs : send_welcome_email (sendEnv cycle (user.email.getD "")) (user.email.getD "")
          (user.firstName.getD "User") with
      | exit k =>
        rw [processLoop_cons_exit sendEnv markOk cycle user rest st k hf hs]
        exact storeEvolves_refl st
      | ret b =>
        cases b with
        | false =>
          rw [processLoop_cons_sendfail sendEnv markOk cycle user rest st hf hs]
          exact ih st
        | true =>
          cases hm : markOk cycle user._id with
          | false =>
            rw [processLoop_cons_markfail sendEnv markOk cycle user rest st hf hs hm]
            exact ih st
          | true =>
            rw [processLoop_cons_markok sendEnv markOk cycle user rest st hf hs hm]
            exact storeEvolves_trans (storeEvolves_update_one user._id st) (ih _)

theorem storeEvolves_process_users (q : Bool) (sendEnv : Nat → String → SmtpEnv)
    (markOk : Nat → Nat → Bool) (cycle : Nat) (st : List UserRecord) :
    StoreEvolves st (process_users q sendEnv markOk cycle st).store := by
  cases q with
  | false => exact storeEvolves_refl st
  | true =>
    by_cases h0 : (st.filter pendingQuery).length = 0
    · simp only [process_users, if_true, if_pos h0]
      exact storeEvolves_refl st
    · simp only [process_users, if_true, if_neg h0]
      exact storeEvolves_processLoop sendEnv markOk cycle (st.filter pendingQuery) st

theorem storeEvolves_runCycles (w : World) (start n : Nat) (st : List UserRecord) :
    StoreEvolves st (runCycles w start n st).store := by
  induction n generalizing start st with
  | zero => exact storeEvolves_refl st
  | succ m ih =>
    simp only [runCycles]
    cases hx : (process_users (w.queryOk start) w.sendEnv w.markOk start st).earlyExit with
    | some code =>
      simpa [hx] using storeEvolves_process_users (w.queryOk start) w.sendEnv w.markOk start st
    | none =>
      simp only [hx]
      exact storeEvolves_trans
        (storeEvolves_process_users (w.queryOk start) w.sendEnv w.markOk start st)
        (ih (start + 1) _)

theorem storeEvolves_serviceMode (w : World) (st : List UserRecord) :
    StoreEvolves st (serviceMode w st).store := by
  cases hf : w.fate with
  | interrupted k =>
    simpa [serviceMode, hf] using storeEvolves_runCycles w 0 (k + 1) st
  | unexpected k =>
    simpa [serviceMode, hf] using storeEvolves_runCycles w 0 k st

theorem storeEvolves_programRun (cfg : Config) (args : Args) (w : World)
    (st : List UserRecord) : StoreEvolves st (programRun cfg args w st).store := by
  unfold programRun
  cases validateEnv cfg with
  | some code => exact storeEvolves_refl st
  | none =>
    cases args.test with
    | true =>
      cases args.test_email with
      | none => exact storeEvolves_refl st
      | some addr =>
        cases hs : send_test_email (w.sendEnv 0 addr) addr with
        | exit c => simp only [hs]; exact storeEvolves_refl st
        | ret b => simp only [hs]; exact storeEvolves_refl st
    | false =>
      cases w.connectOk with
      | true => exact storeEvolves_serviceMode w st
      | false => exact storeEvolves_refl st

/-! ### Facts about one dispatch call -/

theorem send_welcome_email_ret (env : SmtpEnv) (a f : String) (h : env.template ≠ none) :
    send_welcome_email env a f = CallResult.ret env.smtpError.isNone := by
  cases ht : env.template with
  | none => exact absurd ht h
  | some t =>
    cases hs : env.smtpError <;>
      simp [send_welcome_email, load_email_template, ht, hs]

theorem send_ret_true_smtpError {env : SmtpEnv} {a f : String}
    (h : send_welcome_email env a f = CallResult.ret true) : env.smtpError = none := by
  cases ht : env.template with
  | none => simp [send_welcome_email, load_email_template, ht] at h
  | some t =>
    cases hs : env.smtpError with
    | none => rfl
    | some e => simp [send_welcome_email, load_email_template, ht, hs] at h

theorem send_exit_one {env : SmtpEnv} {a f : String} {k : Nat}
    (h : send_welcome_email env a f = CallResult.exit k) : k = 1 := by
  cases ht : env.template with
  | none =>
    simp [send_welcome_email, load_email_template, ht] at h
    exact h.symm
  | some t =>
    cases hs : env.smtpError <;>
      simp [send_welcome_email, load_email_template, ht, hs] at h

/-! ### Looking up the records with a given identifier -/

/-- The records of the collection carrying identifier `i`. -/
def recordsWithId (i : Nat) (l : List UserRecord) : List UserRecord :=
  l.filter (fun u => u._id == i)

theorem mem_recordsWithId {i : Nat} {l : List UserRecord} {v : UserRecord} :
    v ∈ recordsWithId i l ↔ v ∈ l ∧ v._id = i := by
  simp [recordsWithId, List.mem_filter]

theorem recordsWithId_update_ne (i j : Nat) (st : List UserRecord) (hne : j ≠ i) :
    recordsWithId i (update_one_markSent j st) = recordsWithId i st := by
  induction st with
  | nil => rfl
  | cons u rest ih =>
    by_cases h : u._id = j
    · have hfalse : (u._id == i) = false := by
        simp only [beq_eq_false_iff_ne, ne_eq]
        exact fun hc => hne (h ▸ hc)
      simp only [update_one_markSent, if_pos h, recordsWithId, List.filter_cons, hfalse,
        Bool.false_eq_true, if_false]
    · simp only [update_one_markSent, if_neg h, recordsWithId, List.filter_cons]
      cases u._id == i <;> simp_all [recordsWithId]

/-- No record of the collection with identifier `i` has a usable email. -/
def noSendableId (i : Nat) (st : List UserRecord) : Prop :=
  ∀ v ∈ st, v._id = i → optStrFalsy v.email = true

/-! ### What the per-user loop can do, by induction on the candidate list -/

theorem processLoop_noExit (sendEnv : Nat → String → SmtpEnv) (markOk : Nat → Nat → Bool)
    (cycle : Nat) (cs st : List UserRecord)
    (ht : ∀ e, (sendEnv cycle e).template ≠ none) :
    (processLoop sendEnv markOk cycle cs st).earlyExit = none := by
  induction cs generalizing st with
  | nil => rfl
  | cons user rest ih =>
    cases hf : optStrFalsy user.email with
    | true =>
      rw [processLoop_cons_falsy sendEnv markOk cycle user rest st hf]
      exact ih st
    | false =>
      have hret := send_welcome_email_ret (sendEnv cycle (user.email.getD ""))
        (user.email.getD "") (user.firstName.getD "User") (ht _)
      cases hsm : (sendEnv cycle (user.email.getD "")).smtpError with
      | some e =>
        rw [hsm] at hret
        simp only [Option.isNone_some] at hret
        rw [processLoop_cons_sendfail sendEnv markOk cycle user rest st hf hret]
        exact ih st
      | none =>
        rw [hsm] at hret
        simp only [Option.isNone_none] at hret
        cases hm : markOk cycle user._id with
        | true =>
          rw [processLoop_cons_markok sendEnv markOk cycle user rest st hf hret hm]
          exact ih _
        | false =>
          rw [processLoop_cons_markfail sendEnv markOk cycle user rest st hf hret hm]
          exact ih st

theorem processLoop_sendAttempt_origin (sendEnv : Nat → String → SmtpEnv)
    (markOk : Nat → Nat → Bool) (cycle : Nat) (cs st : List UserRecord)
    {i : Nat} {a f : String}
    (h : Event.sendAttempt (some i) a f ∈ (processLoop sendEnv markOk cycle cs st).events) :
    ∃ v ∈ cs, v._id = i ∧ optStrFalsy v.email = false := by
  induction cs generalizing st with
  | nil => simp [processLoop_nil] at h
  | cons user rest ih =>
    cases hf : optStrFalsy user.email with
    | true =>
      rw [processLoop_cons_falsy sendEnv markOk cycle user rest st hf] at h
      simp only [List.mem_cons] at h
      rcases h with h | h
      · exact absurd h (by simp)
      · obtain ⟨v, hv, hvi, hve⟩ := ih st h
        exact ⟨v, List.mem_cons_of_mem _ hv, hvi, hve⟩
    | false =>
      cases hs : send_welcome_email (sendEnv cycle (user.email.getD "")) (user.email.getD "")
          (user.firstName.getD "User") with
      | exit k =>
        rw [processLoop_cons_exit sendEnv markOk cycle user rest st k hf hs] at h
        simp only [List.mem_singleton, Event.sendAttempt.injEq, Option.some.injEq] at h
        exact ⟨user, List.mem_cons_self _ _, h.1.symm, hf⟩
      | ret b =>
        cases b with
        | false =>
          rw [processLoop_cons_sendfail sendEnv markOk cycle user rest st hf hs] at h
          simp only [List.mem_cons] at h
          rcases h with h | h | h
          · simp only [Event.sendAttempt.injEq, Option.some.injEq] at h
            exact ⟨user, List.mem_cons_self _ _, h.1.symm, hf⟩
          · exact absurd h (by simp)
          · obtain ⟨v, hv, hvi, hve⟩ := ih st h
            exact ⟨v, List.mem_cons_of_mem _ hv, hvi, hve⟩
        | true =>
          cases hm : markOk cycle user._id with
          | true =>
            rw [processLoop_cons_markok sendEnv markOk cycle user rest st hf hs hm] at h
            simp only [List.mem_cons] at h
            rcases h with h | h | h
            · simp only [Event.sendAttempt.injEq, Option.some.injEq] at h
              exact ⟨user, List.mem_cons_self _ _, h.1.symm, hf⟩
            · exact absurd h (by simp)
            · obtain ⟨v, hv, hvi, hve⟩ := ih _ h
              exact ⟨v, List.mem_cons_of_mem _ hv, hvi, hve⟩
          | false =>
            rw [processLoop_cons_markfail sendEnv markOk cycle user rest st hf hs hm] at h
            simp only [List.mem_cons] at h
            rcases h with h | h | h
            · simp only [Event.sendAttempt.injEq, Option.some.injEq] at h
              exact ⟨user, List.mem_cons_self _ _, h.1.symm, hf⟩
            · exact absurd h (by simp)
            · obtain ⟨v, hv, hvi, hve⟩ := ih st h
              exact ⟨v, List.mem_cons_of_mem _ hv, hvi, hve⟩

theorem processLoop_markUpdate_origin (sendEnv : Nat → String → SmtpEnv)
    (markOk : Nat → Nat → Bool) (cycle : Nat) (cs st : List UserRecord) {i : Nat}
    (h : Event.markUpdate i ∈ (processLoop sendEnv markOk cycle cs st).events) :
    ∃ v ∈ cs, v._id = i ∧ optStrFalsy v.email = false ∧
      (sendEnv cycle (v.email.getD "")).smtpError = none ∧ markOk cycle i = true := by
  induction cs generalizing st with
  | nil => simp [processLoop_nil] at h
  | cons user rest ih =>
    cases hf : optStrFalsy user.email with
    | true =>
      rw [processLoop_cons_falsy sendEnv markOk cycle user rest st hf] at h
      simp only [List.mem_cons] at h
      rcases h with h | h
      · exact absurd h (by simp)
      · obtain ⟨v, hv, hrest⟩ := ih st h
        exact ⟨v, List.mem_cons_of_mem _ hv, hrest⟩
    | false =>
      cases hs : send_welcome_email (sendEnv cycle (user.email.getD "")) (user.email.getD "")
          (user.firstName.getD "User") with
      | exit k =>
        rw [processLoop_cons_exit sendEnv markOk cycle user rest st k hf hs] at h
        simp at h
      | ret b =>
        cases b with
        | false =>
          rw [processLoop_cons_sendfail sendEnv markOk cycle user rest st hf hs] at h
          simp only [List.mem_cons] at h
          rcases h with h | h | h
          · exact absurd h (by simp)
          · exact absurd h (by simp)
          · obtain ⟨v, hv, hrest⟩ := ih st h
            exact ⟨v, List.mem_cons_of_mem _ hv, hrest⟩
        | true =>
          cases hm : markOk cycle user._id with
          | true =>
            rw [processLoop_cons_markok sendEnv markOk cycle user rest st hf hs hm] at h
            simp only [List.mem_cons] at h
            rcases h with h | h | h
            · exact absurd h (by simp)
            · simp only [Event.markUpdate.injEq] at h
              exact ⟨user, List.mem_cons_self _ _, h.symm, hf,
                send_ret_true_smtpError hs, h ▸ hm⟩
            · obtain ⟨v, hv, hrest⟩ := ih _ h
              exact ⟨v, List.mem_cons_of_mem _ hv, hrest⟩
          | false =>
            rw [processLoop_cons_markfail sendEnv markOk cycle user rest st hf hs hm] at h
            simp only [List.mem_cons] at h
            rcases h with h | h | h
            · exact absurd h (by simp)
            · exact absurd h (by simp)
            · obtain ⟨v, hv, hrest⟩ := ih st h
              exact ⟨v, List.mem_cons_of_mem _ hv, hrest⟩

theorem processLoop_store_of_not_marked (sendEnv : Nat → String → SmtpEnv)
    (markOk : Nat → Nat → Bool) (cycle : Nat) (cs st : List UserRecord) {i : Nat}
    (h : Event.markUpdate i ∉ (processLoop sendEnv markOk cycle cs st).events) :
    recordsWithId i (processLoop sendEnv markOk cycle cs st).store = recordsWithId i st := by
  induction cs generalizing st with
  | nil => rfl
  | cons user rest ih =>
    cases hf : optStrFalsy user.email with
    | true =>
      rw [processLoop_cons_falsy sendEnv markOk cycle user rest st hf] at h ⊢
      exact ih st (fun hc => h (List.mem_cons_of_mem _ hc))
    | false =>
      cases hs : send_welcome_email (sendEnv cycle (user.email.getD "")) (user.email.getD "")
          (user.firstName.getD "User") with
      | exit k =>
        rw [processLoop_cons_exit sendEnv markOk cycle user rest st k hf hs]
      | ret b =>
        cases b with
        | false =>
          rw [processLoop_cons_sendfail sendEnv markOk cycle user rest st hf hs] at h ⊢
          exact ih st (fun hc => h (List.mem_cons_of_mem _ (List.mem_cons_of_mem _ hc)))
        | true =>
          cases hm : markOk cycle user._id with
          | true =>
            rw [processLoop_cons_markok sendEnv markOk cycle user rest st hf hs hm] at h ⊢
            have hne : user._id ≠ i := by
              intro hc
              exact h (hc ▸ List.mem_cons_of_mem _ (List.mem_cons_self _ _))
            have := ih (update_one_markSent user._id st)
              (fun hc => h (List.mem_cons_of_mem _ (List.mem_cons_of_mem _ hc)))
            rw [this, recordsWithId_update_ne i user._id st hne]
          | false =>
            rw [processLoop_cons_markfail sendEnv markOk cycle user rest st hf hs hm] at h ⊢
            exact ih st (fun hc => h (List.mem_cons_of_mem _ (List.mem_cons_of_mem _ hc)))

theorem processLoop_visit (sendEnv : Nat → String → SmtpEnv) (markOk : Nat → Nat → Bool)
    (cycle : Nat) (cs st : List UserRecord)
    (ht : ∀ e, (sendEnv cycle e).template ≠ none) {u : UserRecord} (hu : u ∈ cs) :
    (optStrFalsy u.email = true →
       Event.warnSkip u._id ∈ (processLoop sendEnv markOk cycle cs st).events) ∧
    (optStrFalsy u.email = false →
       Event.sendAttempt (some u._id) (u.email.getD "") (u.firstName.getD "User") ∈
         (processLoop sendEnv markOk cycle cs st).events ∧
       ((sendEnv cycle (u.email.getD "")).smtpError ≠ none →
          Event.sendFailure u._id ∈ (processLoop sendEnv markOk cycle cs st).events) ∧
       ((sendEnv cycle (u.email.getD "")).smtpError = none → markOk cycle u._id = true →
          Event.markUpdate u._id ∈ (processLoop sendEnv markOk cycle cs st).events) ∧
       ((sendEnv cycle (u.email.getD "")).smtpError = none → markOk cycle u._id = false →
          Event.markFailure u._id ∈ (processLoop sendEnv markOk cycle cs st).events)) := by
  induction cs generalizing st with
  | nil => cases hu
  | cons user rest ih =>
    rcases List.mem_cons.mp hu with rfl | hu
    · cases hf : optStrFalsy u.email with
      | true =>
        rw [processLoop_cons_falsy sendEnv markOk cycle u rest st hf]
        exact ⟨fun _ => List.mem_cons_self _ _, fun hc => Bool.noConfusion hc⟩
      | false =>
        have hret := send_welcome_email_ret (sendEnv cycle (u.email.getD ""))
          (u.email.getD "") (u.firstName.getD "User") (ht _)
        cases hsm : (sendEnv cycle (u.email.getD "")).smtpError with
        | some e =>
          rw [hsm] at hret
          simp only [Option.isNone_some] at hret
          rw [processLoop_cons_sendfail sendEnv markOk cycle u rest st hf hret]
          exact ⟨fun hc => Bool.noConfusion hc, fun _ => ⟨List.mem_cons_self _ _,
            fun _ => List.mem_cons_of_mem _ (List.mem_cons_self _ _),
            fun hc _ => Option.noConfusion hc,
            fun hc _ => Option.noConfusion hc⟩⟩
        | none =>
          rw [hsm] at hret
          simp only [Option.isNone_none] at hret
          cases hm : markOk cycle u._id with
          | true =>
            rw [processLoop_cons_markok sendEnv markOk cycle u rest st hf hret hm]
            exact ⟨fun hc => Bool.noConfusion hc, fun _ => ⟨List.mem_cons_self _ _,
              fun hc => absurd rfl hc,
              fun _ _ => List.mem_cons_of_mem _ (List.mem_cons_self _ _),
              fun _ hc => Bool.noConfusion hc⟩⟩
          | false =>
            rw [processLoop_cons_markfail sendEnv markOk cycle u rest st hf hret hm]
            exact ⟨fun hc => Bool.noConfusion hc, fun _ => ⟨List.mem_cons_self _ _,
              fun hc => absurd rfl hc,
              fun _ hc => Bool.noConfusion hc,
              fun _ _ => List.mem_cons_of_mem _ (List.mem_cons_self _ _)⟩⟩
    · cases hf : optStrFalsy user.email with
      | true =>
        rw [processLoop_cons_falsy sendEnv markOk cycle user rest st hf]
        obtain ⟨h1, h2⟩ := ih st hu
        exact ⟨fun hc => List.mem_cons_of_mem _ (h1 hc),
          fun hc => ⟨List.mem_cons_of_mem _ (h2 hc).1,
            fun hx => List.mem_cons_of_mem _ ((h2 hc).2.1 hx),
            fun hx hy => List.mem_cons_of_mem _ ((h2 hc).2.2.1 hx hy),
            fun hx hy => List.mem_cons_of_mem _ ((h2 hc).2.2.2 hx hy)⟩⟩
      | false =>
        have hret := send_welcome_email_ret (sendEnv cycle (user.email.getD ""))
          (user.email.getD "") (user.firstName.getD "User") (ht _)
        cases hsm : (sendEnv cycle (user.email.getD "")).smtpError with
        | some e =>
          rw [hsm] at hret
          simp only [Option.isNone_some] at hret
          rw [processLoop_cons_sendfail sendEnv markOk cycle user rest st hf hret]
          obtain ⟨h1, h2⟩ := ih st hu
          exact ⟨fun hc => List.mem_cons_of_mem _ (List.mem_cons_of_mem _ (h1 hc)),
            fun hc => ⟨List.mem_cons_of_mem _ (List.mem_cons_of_mem _ (h2 hc).1),
              fun hx => List.mem_cons_of_mem _ (List.mem_cons_of_mem _ ((h2 hc).2.1 hx)),
              fun hx hy =>
                List.mem_cons_of_mem _ (List.mem_cons_of_mem _ ((h2 hc).2.2.1 hx hy)),
              fun hx hy =>
                List.mem_cons_of_mem _ (List.mem_cons_of_mem _ ((h2 hc).2.2.2 hx hy))⟩⟩
        | none =>
          rw [hsm] at hret
          simp only [Option.isNone_none] at hret
          cases hm : markOk cycle user._id with
          | true =>
            rw [processLoop_cons_markok sendEnv markOk cycle user rest st hf hret hm]
            obtain ⟨h1, h2⟩ := ih (update_one_markSent user._id st) hu
            exact ⟨fun hc => List.mem_cons_of_mem _ (List.mem_cons_of_mem _ (h1 hc)),
              fun hc => ⟨List.mem_cons_of_mem _ (List.mem_cons_of_mem _ (h2 hc).1),
                fun hx => List.mem_cons_of_mem _ (List.mem_cons_of_mem _ ((h2 hc).2.1 hx)),
                fun hx hy =>
                  List.mem_cons_of_mem _ (List.mem_cons_of_mem _ ((h2 hc).2.2.1 hx hy)),
                fun hx hy =>
                  List.mem_cons_of_mem _ (List.mem_cons_of_mem _ ((h2 hc).2.2.2 hx hy))⟩⟩
          | false =>
            rw [processLoop_cons_markfail sendEnv markOk cycle user rest st hf hret hm]
            obtain ⟨h1, h2⟩ := ih st hu
            exact ⟨fun hc => List.mem_cons_of_mem _ (List.mem_cons_of_mem _ (h1 hc)),
              fun hc => ⟨List.mem_cons_of_mem _ (List.mem_cons_of_mem _ (h2 hc).1),
                fun hx => List.mem_cons_of_mem _ (List.mem_cons_of_mem _ ((h2 hc).2.1 hx)),
                fun hx hy =>
                  List.mem_cons_of_mem _ (List.mem_cons_of_mem _ ((h2 hc).2.2.1 hx hy)),
                fun hx hy =>
                  List.mem_cons_of_mem _ (List.mem_cons_of_mem _ ((h2 hc).2.2.2 hx hy))⟩⟩

/-! ### Lifting the loop facts to one poll cycle -/

theorem process_users_queryFail (sendEnv : Nat → String → SmtpEnv)
    (markOk : Nat → Nat → Bool) (cycle : Nat) (st : List UserRecord) :
    process_users false sendEnv markOk cycle st = ⟨[Event.queryCount], st, some 1⟩ := rfl

theorem process_users_zero (sendEnv : Nat → String → SmtpEnv) (markOk : Nat → Nat → Bool)
    (cycle : Nat) (st : List UserRecord) (h0 : (st.filter pendingQuery).length = 0) :
    process_users true sendEnv markOk cycle st = ⟨[Event.queryCount], st, none⟩ := by
  simp [process_users, h0]

theorem process_users_run (sendEnv : Nat → String → SmtpEnv) (markOk : Nat → Nat → Bool)
    (cycle : Nat) (st : List UserRecord) (h0 : (st.filter pendingQuery).length ≠ 0) :
    process_users true sendEnv markOk cycle st =
      ⟨Event.queryCount :: Event.queryFind ::
         (processLoop sendEnv markOk cycle (st.filter pendingQuery) st).events,
       (processLoop sendEnv markOk cycle (st.filter pendingQuery) st).store,
       (processLoop sendEnv markOk cycle (st.filter pendingQuery) st).earlyExit⟩ := by
  simp [process_users, h0]

theorem process_users_sendAttempt_origin {q : Bool} {sendEnv : Nat → String → SmtpEnv}
    {markOk : Nat → Nat → Bool} {cycle : Nat} {st : List UserRecord} {i : Nat} {a f : String}
    (h : Event.sendAttempt (some i) a f ∈ (process_users q sendEnv markOk cycle st).events) :
    ∃ v ∈ st, v._id = i ∧ optStrFalsy v.email = false := by
  cases q with
  | false => simp [process_users_queryFail] at h
  | true =>
    by_cases h0 : (st.filter pendingQuery).length = 0
    · rw [process_users_zero sendEnv markOk cycle st h0] at h
      simp at h
    · rw [process_users_run sendEnv markOk cycle st h0] at h
      simp only [List.mem_cons] at h
      rcases h with h | h | h
      · exact absurd h (by simp)
      · exact absurd h (by simp)
      · obtain ⟨v, hv, hvi, hve⟩ := processLoop_sendAttempt_origin sendEnv markOk cycle _ st h
        exact ⟨v, (List.mem_filter.mp hv).1, hvi, hve⟩

theorem process_users_markUpdate_origin {q : Bool} {sendEnv : Nat → String → SmtpEnv}
    {markOk : Nat → Nat → Bool} {cycle : Nat} {st : List UserRecord} {i : Nat}
    (h : Event.markUpdate i ∈ (process_users q sendEnv markOk cycle st).events) :
    ∃ v ∈ st, v._id = i ∧ optStrFalsy v.email = false ∧
      (sendEnv cycle (v.email.getD "")).smtpError = none ∧ markOk cycle i = true := by
  cases q with
  | false => simp [process_users_queryFail] at h
  | true =>
    by_cases h0 : (st.filter pendingQuery).length = 0
    · rw [process_users_zero sendEnv markOk cycle st h0] at h
      simp at h
    · rw [process_users_run sendEnv markOk cycle st h0] at h
      simp only [List.mem_cons] at h
      rcases h with h | h | h
      · exact absurd h (by simp)
      · exact absurd h (by simp)
      · obtain ⟨v, hv, hrest⟩ := processLoop_markUpdate_origin sendEnv markOk cycle _ st h
        exact ⟨v, (List.mem_filter.mp hv).1, hrest⟩

theorem process_users_store_of_not_marked {q : Bool} {sendEnv : Nat → String → SmtpEnv}
    {markOk : Nat → Nat → Bool} {cycle : Nat} {st : List UserRecord} {i : Nat}
    (h : Event.markUpdate i ∉ (process_users q sendEnv markOk cycle st).events) :
    recordsWithId i (process_users q sendEnv markOk cycle st).store = recordsWithId i st := by
  cases q with
  | false => rfl
  | true =>
    by_cases h0 : (st.filter pendingQuery).length = 0
    · rw [process_users_zero sendEnv markOk cycle st h0]
    · rw [process_users_run sendEnv markOk cycle st h0] at h ⊢
      exact processLoop_store_of_not_marked sendEnv markOk cycle _ st
        (fun hc => h (List.mem_cons_of_mem _ (List.mem_cons_of_mem _ hc)))

theorem process_users_noExit (sendEnv : Nat → String → SmtpEnv) (markOk : Nat → Nat → Bool)
    (cycle : Nat) (st : List UserRecord)
    (ht : ∀ e, (sendEnv cycle e).template ≠ none) :
    (process_users true sendEnv markOk cycle st).earlyExit = none := by
  by_cases h0 : (st.filter pendingQuery).length = 0
  · rw [process_users_zero sendEnv markOk cycle st h0]
  · rw [process_users_run sendEnv markOk cycle st h0]
    exact processLoop_noExit sendEnv markOk cycle _ st ht

/-! ### Records with an unusable identifier across many cycles -/

theorem runCycles_noSendable {i : Nat} (w : World) (start n : Nat) (st : List UserRecord)
    (hns : noSendableId i st) :
    (∀ a f, Event.sendAttempt (some i) a f ∉ (runCycles w start n st).events) ∧
    Event.markUpdate i ∉ (runCycles w start n st).events ∧
    recordsWithId i (runCycles w start n st).store = recordsWithId i st := by
  induction n generalizing start st with
  | zero => simp [runCycles]
  | succ m ih =>
    have hsend : ∀ a f, Event.sendAttempt (some i) a f ∉
        (process_users (w.queryOk start) w.sendEnv w.markOk start st).events := by
      intro a f hc
      obtain ⟨v, hv, hvi, hve⟩ := process_users_sendAttempt_origin hc
      rw [hns v hv hvi] at hve
      exact Bool.noConfusion hve
    have hmark : Event.markUpdate i ∉
        (process_users (w.queryOk start) w.sendEnv w.markOk start st).events := by
      intro hc
      obtain ⟨v, hv, hvi, hve, _⟩ := process_users_markUpdate_origin hc
      rw [hns v hv hvi] at hve
      exact Bool.noConfusion hve
    have hstore := process_users_store_of_not_marked hmark
    have hns' : noSendableId i
        (process_users (w.queryOk start) w.sendEnv w.markOk start st).store := by
      intro v hv hvi
      have hmem : v ∈ recordsWithId i
          (process_users (w.queryOk start) w.sendEnv w.markOk start st).store :=
        mem_recordsWithId.mpr ⟨hv, hvi⟩
      rw [hstore] at hmem
      exact hns v (mem_recordsWithId.mp hmem).1 hvi
    simp only [runCycles]
    cases hx : (process_users (w.queryOk start) w.sendEnv w.markOk start st).earlyExit with
    | some code =>
      simp only [hx]
      exact ⟨hsend, hmark, hstore⟩
    | none =>
      simp only [hx]
      obtain ⟨ihs, ihm, ihst⟩ := ih (start + 1) _ hns'
      refine ⟨?_, ?_, ?_⟩
      · intro a f hc
        rcases List.mem_append.mp hc with hc | hc
        · exact hsend a f hc
        · exact ihs a f hc
      · intro hc
        rcases List.mem_append.mp hc with hc | hc
        · exact hmark hc
        · exact ihm hc
      · rw [ihst, hstore]

/-! ### Identifier uniqueness and flag persistence -/

theorem eq_of_mem_nodup_ids {st : List UserRecord}
    (hnd : (st.map (fun r => r._id)).Nodup) {u v : UserRecord}
    (hu : u ∈ st) (hv : v ∈ st) (h : u._id = v._id) : u = v := by
  induction st with
  | nil => cases hu
  | cons a rest ih =>
    simp only [List.map_cons, List.nodup_cons] at hnd
    rcases List.mem_cons.mp hu with hua | hu2
    · rcases List.mem_cons.mp hv with hva | hv2
      · rw [hua, hva]
      · have hva2 : v._id = a._id := by rw [← h, hua]
        exact absurd (show a._id ∈ List.map (fun r => r._id) rest from
          List.mem_map.mpr ⟨v, hv2, hva2⟩) hnd.1
    · rcases List.mem_cons.mp hv with hva | hv2
      · have hua2 : u._id = a._id := by rw [h, hva]
        exact absurd (show a._id ∈ List.map (fun r => r._id) rest from
          List.mem_map.mpr ⟨u, hu2, hua2⟩) hnd.1
      · exact ih hnd.2 hu2 hv2

theorem recStep_id {a b : UserRecord} (h : recStep a b) : b._id = a._id := by
  rcases h with rfl | rfl <;> rfl

theorem recStep_flagTrue {a b : UserRecord} (h : recStep a b)
    (ha : a.welcome_email_sent = some true) : b.welcome_email_sent = some true := by
  rcases h with rfl | rfl
  · exact ha
  · rfl

theorem storeEvolves_mem_right {st st' : List UserRecord} (h : StoreEvolves st st')
    {v : UserRecord} (hv : v ∈ st') : ∃ u ∈ st, recStep u v := by
  induction h with
  | nil => cases hv
  | cons hr _ ih =>
    rcases List.mem_cons.mp hv with rfl | hv
    · exact ⟨_, List.mem_cons_self _ _, hr⟩
    · obtain ⟨u, hu, hru⟩ := ih hv
      exact ⟨u, List.mem_cons_of_mem _ hu, hru⟩

theorem storeEvolves_flagTrue_persists {st st' : List UserRecord} (h : StoreEvolves st st')
    {i : Nat} (hflag : ∀ v ∈ st, v._id = i → v.welcome_email_sent = some true) :
    ∀ v ∈ st', v._id = i → v.welcome_email_sent = some true := by
  intro v hv hvi
  obtain ⟨u, hu, hru⟩ := storeEvolves_mem_right h hv
  exact recStep_flagTrue hru (hflag u hu ((recStep_id hru).symm.trans hvi))

theorem update_one_markSent_flag {st : List UserRecord} {u : UserRecord}
    (hnd : (st.map (fun r => r._id)).Nodup) (hu : u ∈ st) :
    ∀ v ∈ update_one_markSent u._id st, v._id = u._id →
      v.welcome_email_sent = some true := by
  induction st with
  | nil => cases hu
  | cons a rest ih =>
    simp only [List.map_cons, List.nodup_cons] at hnd
    rcases List.mem_cons.mp hu with rfl | hu
    · intro v hv hvi
      simp only [update_one_markSent, if_pos rfl] at hv
      rcases List.mem_cons.mp hv with rfl | hv
      · rfl
      · exact absurd (show u._id ∈ List.map (fun r => r._id) rest from
          List.mem_map.mpr ⟨v, hv, hvi⟩) hnd.1
    · by_cases hae : a._id = u._id
      · intro v hv hvi
        exact absurd (show a._id ∈ List.map (fun r => r._id) rest from
          List.mem_map.mpr ⟨u, hu, hae.symm⟩) hnd.1
      · intro v hv hvi
        simp only [update_one_markSent, if_neg hae] at hv
        rcases List.mem_cons.mp hv with rfl | hv
        · exact absurd hvi hae
        · exact ih hnd.2 hu v hv hvi

/-! ### The only `sys.exit` code a cycle can raise is 1 -/

theorem processLoop_exit_one (sendEnv : Nat → String → SmtpEnv) (markOk : Nat → Nat → Bool)
    (cycle : Nat) (cs st : List UserRecord) {k : Nat}
    (h : (processLoop sendEnv markOk cycle cs st).earlyExit = some k) : k = 1 := by
  induction cs generalizing st with
  | nil => exact Option.noConfusion h
  | cons user rest ih =>
    cases hf : optStrFalsy user.email with
    | true =>
      rw [processLoop_cons_falsy sendEnv markOk cycle user rest st hf] at h
      exact ih st h
    | false =>
      cases hs : send_welcome_email (sendEnv cycle (user.email.getD "")) (user.email.getD "")
          (user.firstName.getD "User") with
      | exit k2 =>
        rw [processLoop_cons_exit sendEnv markOk cycle user rest st k2 hf hs] at h
        have hk : k2 = k := Option.some.inj h
        rw [← hk]
        exact send_exit_one hs
      | ret b =>
        cases b with
        | false =>
          rw [processLoop_cons_sendfail sendEnv markOk cycle user rest st hf hs] at h
          exact ih st h
        | true =>
          cases hm : markOk cycle user._id with
          | true =>
            rw [processLoop_cons_markok sendEnv markOk cycle user rest st hf hs hm] at h
            exact ih _ h
          | false =>
            rw [processLoop_cons_markfail sendEnv markOk cycle user rest st hf hs hm] at h
            exact ih st h

theorem process_users_exit_one {q : Bool} {sendEnv : Nat → String → SmtpEnv}
    {markOk : Nat → Nat → Bool} {cycle : Nat} {st : List UserRecord} {k : Nat}
    (h : (process_users q sendEnv markOk cycle st).earlyExit = some k) : k = 1 := by
  cases q with
  | false =>
    rw [process_users_queryFail] at h
    exact (Option.some.inj h).symm
  | true =>
    by_cases h0 : (st.filter pendingQuery).length = 0
    · rw [process_users_zero sendEnv markOk cycle st h0] at h
      exact Option.noConfusion h
    · rw [process_users_run sendEnv markOk cycle st h0] at h
      exact processLoop_exit_one sendEnv markOk cycle _ st h

theorem runCycles_exit_one {w : World} {start n : Nat} {st : List UserRecord} {k : Nat}
    (h : (runCycles w start n st).earlyExit = some k) : k = 1 := by
  induction n generalizing start st with
  | zero => exact Option.noConfusion h
  | succ m ih =>
    simp only [runCycles] at h
    cases hx : (process_users (w.queryOk start) w.sendEnv w.markOk start st).earlyExit with
    | some code =>
      rw [hx] at h
      simp only at h
      rw [← Option.some.inj h]
      exact process_users_exit_one hx
    | none =>
      rw [hx] at h
      simp only at h
      exact ih h

theorem validateEnv_exit_one {c : Config} {k : Nat} (h : validateEnv c = some k) : k = 1 := by
  unfold validateEnv at h
  split at h
  · exact (Option.some.inj h).symm
  · split at h
    · exact (Option.some.inj h).symm
    · exact Option.noConfusion h

/-- A candidate whose send failed, or whose mark raised, is left untouched in
the collection produced by the cycle (identifier uniqueness assumed). -/
theorem process_users_leavesUnmarked {q : Bool} {sendEnv : Nat → String → SmtpEnv}
    {markOk : Nat → Nat → Bool} {cycle : Nat} {st : List UserRecord}
    (hnd : (st.map (fun r => r._id)).Nodup) {u : UserRecord} (hu : u ∈ st)
    (hbad : (sendEnv cycle (u.email.getD "")).smtpError ≠ none ∨
      markOk cycle u._id = false) :
    Event.markUpdate u._id ∉ (process_users q sendEnv markOk cycle st).events ∧
    ∀ v ∈ (process_users q sendEnv markOk cycle st).store, v._id = u._id → v = u := by
  have hnm : Event.markUpdate u._id ∉ (process_users q sendEnv markOk cycle st).events := by
    intro hc
    obtain ⟨v, hv, hvi, hve, hsm, hmk⟩ := process_users_markUpdate_origin hc
    have hveq : v = u := eq_of_mem_nodup_ids hnd hv hu hvi
    rcases hbad with hbad | hbad
    · rw [hveq] at hsm
      exact hbad hsm
    · rw [hbad] at hmk
      exact Bool.noConfusion hmk
  have hst := process_users_store_of_not_marked hnm
  refine ⟨hnm, ?_⟩
  intro v hv hvi
  have hvm : v ∈ recordsWithId u._id (process_users q sendEnv markOk cycle st).store :=
    mem_recordsWithId.mpr ⟨hv, hvi⟩
  rw [hst] at hvm
  exact eq_of_mem_nodup_ids hnd (mem_recordsWithId.mp hvm).1 hu hvi

/-! ### Concrete sample data used by the closed theorems -/

/-- A well-formed environment configuration. -/
def cfgGood : Config := ⟨some "mongodb://db.example/wv", none, some "app@gmail.com",
  some "secret", none⟩

/-- A configuration with `MONGODB_URI` unset. -/
def cfgNoURI : Config := ⟨none, none, some "app@gmail.com", some "secret", none⟩

/-- Service-mode invocation (no flags). -/
def argsService : Args := ⟨false, none, 60⟩

/-- `--test --test-email a@example.com`. -/
def argsTest : Args := ⟨true, some "a@example.com", 60⟩

/-- A pending user with a usable email address. -/
def sampleUser : UserRecord := ⟨1, some "u1", some "ada@example.com", some "Ada", none⟩

/-- A pending user whose `email` field is missing. -/
def sampleNoEmail : UserRecord := ⟨2, some "u2", none, none, none⟩

/-- Template present, SMTP healthy. -/
def envOK : SmtpEnv := ⟨some welcome_email_template, none, 2024⟩

/-- Template present, SMTP authentication failing. -/
def envAuthFail : SmtpEnv := ⟨some welcome_email_template, some "SMTPAuthenticationError",
  2024⟩

/-- Template file missing. -/
def envNoTemplate : SmtpEnv := ⟨none, none, 2024⟩

/-- A healthy world, interrupted during the first sleep. -/
def wService : World := ⟨true, fun _ => true, fun _ _ => envOK, fun _ _ => true,
  LoopFate.interrupted 0⟩

/-- Connection fine, but every collection query raises; interrupt would only
arrive after cycle 3. -/
def wQueryFail : World := ⟨true, fun _ => false, fun _ _ => envOK, fun _ _ => true,
  LoopFate.interrupted 3⟩

/-- Every SMTP session fails to authenticate. -/
def wSendFail : World := ⟨true, fun _ => true, fun _ _ => envAuthFail, fun _ _ => true,
  LoopFate.interrupted 0⟩

/-! ### The claims -/

/-- C1 counterexample: the claim says a query failure during a poll cycle
after the initial connection was acquired does not exit the process.  In
`wQueryFail` the connection succeeds, the interrupt is only due after cycle 3,
and the cycle-0 query fails: the run stops at once with exit code 1 (the
`sys.exit(1)` of `process_users` line 114 passes the `except Exception` of
`main`), having performed a single query attempt — the users are not retried. -/
theorem claim_C1_counterexample :
    (programRun cfgGood argsService wQueryFail [sampleUser]).exitCode = 1 ∧
    (programRun cfgGood argsService wQueryFail [sampleUser]).events = [Event.queryCount] ∧
    wQueryFail.connectOk = true ∧ wQueryFail.fate = LoopFate.interrupted 3 :=
  ⟨rfl, rfl, rfl, rfl⟩

/-- C1 amended: a `count_documents`/`find` failure during ANY poll cycle is
fatal — the cycle raises `SystemExit(1)` and the process exits with code 1
even though the initial connection had been acquired; only a per-user
`update_one` failure is non-fatal: the cycle still completes and the affected
user's record is left unchanged (hence still pending, retried next cycle). -/
theorem claim_C1 :
    (∀ (sendEnv : Nat → String → SmtpEnv) (markOk : Nat → Nat → Bool) (cycle : Nat)
       (st : List UserRecord),
       process_users false sendEnv markOk cycle st = ⟨[Event.queryCount], st, some 1⟩) ∧
    (∀ (cfg : Config) (args : Args) (w : World) (st : List UserRecord),
       validateEnv cfg = none → args.test = false → w.connectOk = true →
       w.queryOk 0 = false → (programRun cfg args w st).exitCode = 1) ∧
    (∀ (sendEnv : Nat → String → SmtpEnv) (markOk : Nat → Nat → Bool) (cycle : Nat)
       (st : List UserRecord) (u : UserRecord),
       (∀ e, (sendEnv cycle e).template ≠ none) →
       (st.map (fun r => r._id)).Nodup → u ∈ st →
       markOk cycle u._id = false →
       (process_users true sendEnv markOk cycle st).earlyExit = none ∧
       ∀ v ∈ (process_users true sendEnv markOk cycle st).store,
         v._id = u._id → v = u) := by
  refine ⟨?_, ?_, ?_⟩
  · intro sendEnv markOk cycle st
    exact process_users_queryFail sendEnv markOk cycle st
  · intro cfg args w st hv htest hconn hq
    unfold programRun
    rw [hv, htest]
    simp only [Bool.false_eq_true, if_false, hconn, if_true]
    cases hfate : w.fate with
    | interrupted k =>
      simp only [serviceMode, hfate, runCycles, hq, process_users_queryFail]
      rfl
    | unexpected k =>
      cases k with
      | zero => simp only [serviceMode, hfate, runCycles, Option.getD_none]
      | succ m =>
        simp only [serviceMode, hfate, runCycles, hq, process_users_queryFail]
        rfl
  · intro sendEnv markOk cycle st u ht hnd hu hm
    exact ⟨process_users_noExit sendEnv markOk cycle st ht,
      (process_users_leavesUnmarked hnd hu (Or.inr hm)).2⟩

/-- C1 witness: the three parts of the amended claim evaluated on concrete
inputs. -/
theorem claim_C1_witness :
    process_users false wService.sendEnv wService.markOk 0 [sampleUser] =
      ⟨[Event.queryCount], [sampleUser], some 1⟩ ∧
    (programRun cfgGood argsService wQueryFail [sampleUser]).exitCode = 1 ∧
    (process_users true (fun _ _ => envOK) (fun _ _ => false) 0 [sampleUser]).earlyExit =
      none :=
  ⟨claim_C1.1 wService.sendEnv wService.markOk 0 [sampleUser],
   claim_C1.2.1 cfgGood argsService wQueryFail [sampleUser] rfl rfl rfl rfl,
   (claim_C1.2.2 (fun _ _ => envOK) (fun _ _ => false) 0 [sampleUser] sampleUser
     (fun _ h => Option.noConfusion h) (by decide) (by simp) rfl).1⟩

/-- C2 counterexample: with the template file missing, `send_welcome_email`
does not return a boolean at all — `load_email_template` calls `sys.exit(1)`
from inside the call, which terminates the process, escaping the call's
boundary. -/
theorem claim_C2_counterexample :
    (send_welcome_email envNoTemplate "a@example.com" "Ada").isRet = false ∧
    send_welcome_email envNoTemplate "a@example.com" "Ada" = CallResult.exit 1 :=
  ⟨rfl, rfl⟩

/-- C2 amended: for every recipient and name, when the template file exists
the call always returns a boolean — `true` exactly when the SMTP block raises
no `Exception`-derived error, `false` for every caught transport,
authentication or protocol error; when the template file is missing the call
terminates the process with exit code 1 instead of returning. -/
theorem claim_C2 :
    ∀ (env : SmtpEnv) (a f : String),
      (env.template = none → send_welcome_email env a f = CallResult.exit 1) ∧
      (env.template ≠ none →
        send_welcome_email env a f = CallResult.ret env.smtpError.isNone) := by
  intro env a f
  constructor
  · intro h
    simp [send_welcome_email, load_email_template, h]
  · exact send_welcome_email_ret env a f

/-- C2 witness: both branches of the amended claim at concrete environments. -/
theorem claim_C2_witness :
    send_welcome_email envNoTemplate "a@example.com" "Ada" = CallResult.exit 1 ∧
    send_welcome_email envOK "a@example.com" "Ada" = CallResult.ret true :=
  ⟨(claim_C2 envNoTemplate "a@example.com" "Ada").1 rfl,
   (claim_C2 envOK "a@example.com" "Ada").2 (fun h => Option.noConfusion h)⟩

/-- C3: a pending user whose `email` field is missing is never sent to and
never marked over any number of poll cycles, its record stays exactly as it
was (hence still pending), and a cycle that reaches the loop with the
template present logs the skip warning for it. -/
theorem claim_C3 (w : World) (start n : Nat) (st : List UserRecord) (u : UserRecord)
    (hnd : (st.map (fun r => r._id)).Nodup) (hu : u ∈ st) (he : u.email = none)
    (hp : pendingQuery u = true) :
    (∀ a f, Event.sendAttempt (some u._id) a f ∉ (runCycles w start n st).events) ∧
    Event.markUpdate u._id ∉ (runCycles w start n st).events ∧
    (∀ v ∈ (runCycles w start n st).store, v._id = u._id → v = u) ∧
    ((∀ e, (w.sendEnv start e).template ≠ none) → w.queryOk start = true →
      Event.warnSkip u._id ∈
        (process_users (w.queryOk start) w.sendEnv w.markOk start st).events) := by
  have hns : noSendableId u._id st := by
    intro v hv hvi
    rw [eq_of_mem_nodup_ids hnd hv hu hvi, he]
    rfl
  obtain ⟨h1, h2, h3⟩ := runCycles_noSendable w start n st hns
  refine ⟨h1, h2, ?_, ?_⟩
  · intro v hv hvi
    have hvm : v ∈ recordsWithId u._id (runCycles w start n st).store :=
      mem_recordsWithId.mpr ⟨hv, hvi⟩
    rw [h3] at hvm
    exact eq_of_mem_nodup_ids hnd (mem_recordsWithId.mp hvm).1 hu hvi
  · intro ht hq
    rw [hq]
    have hmemf : u ∈ st.filter pendingQuery := List.mem_filter.mpr ⟨hu, hp⟩
    have h0 : (st.filter pendingQuery).length ≠ 0 := by
      intro hzero
      rw [List.length_eq_zero] at hzero
      rw [hzero] at hmemf
      cases hmemf
    rw [process_users_run w.sendEnv w.markOk start st h0]
    have hfalsy : optStrFalsy u.email = true := by rw [he]; rfl
    have hw := (processLoop_visit w.sendEnv w.markOk start _ st ht hmemf).1 hfalsy
    exact List.mem_cons_of_mem _ (List.mem_cons_of_mem _ hw)

/-- C3 witness: the email-less user of a one-user collection over one cycle. -/
theorem claim_C3_witness :
    (([sampleNoEmail].map (fun r => r._id)).Nodup) ∧
    Event.markUpdate sampleNoEmail._id ∉ (runCycles wService 0 1 [sampleNoEmail]).events ∧
    Event.warnSkip sampleNoEmail._id ∈
      (process_users (wService.queryOk 0) wService.sendEnv wService.markOk 0
        [sampleNoEmail]).events :=
  ⟨by decide,
   (claim_C3 wService 0 1 [sampleNoEmail] sampleNoEmail (by decide) (by simp) rfl
     rfl).2.1,
   (claim_C3 wService 0 1 [sampleNoEmail] sampleNoEmail (by decide) (by simp) rfl
     rfl).2.2.2 (fun _ h => Option.noConfusion h) rfl⟩

/-- C4: over one entire process run — whatever the configuration, arguments,
external world and initial collection — every record either stays unchanged
or has its `welcome_email_sent` flag set to `true` with all other fields
kept; no operation removes the flag or sets it back to `false`. -/
theorem claim_C4 (cfg : Config) (args : Args) (w : World) (st : List UserRecord) :
    StoreEvolves st (programRun cfg args w st).store :=
  storeEvolves_programRun cfg args w st

/-- C5: once a user's record is marked (`update_one` sets the flag), no
pending-user query of any number of subsequent poll cycles selects a record
with that user's identifier. -/
theorem claim_C5 (w : World) (start n : Nat) (st : List UserRecord) (u : UserRecord)
    (hnd : (st.map (fun r => r._id)).Nodup) (hu : u ∈ st) :
    ∀ v ∈ ((runCycles w start n (update_one_markSent u._id st)).store.filter pendingQuery),
      v._id ≠ u._id := by
  intro v hv hvi
  have hflag0 := update_one_markSent_flag hnd hu
  have hev : StoreEvolves (update_one_markSent u._id st)
      (runCycles w start n (update_one_markSent u._id st)).store :=
    storeEvolves_runCycles w start n _
  have hflag := storeEvolves_flagTrue_persists hev hflag0
  have hvm := List.mem_filter.mp hv
  have hvtrue : v.welcome_email_sent = some true := hflag v hvm.1 hvi
  have hpv : pendingQuery v = true := hvm.2
  simp [pendingQuery, hvtrue] at hpv

/-- C5 witness: mark the only user, run one more cycle, and its identifier is
absent from the pending query's result. -/
theorem claim_C5_witness :
    sampleUser._id ∉
      (((runCycles wService 0 1 (update_one_markSent sampleUser._id
        [sampleUser])).store.filter pendingQuery).map (fun r => r._id)) := by
  intro hmem
  obtain ⟨v, hv, hvi⟩ := List.mem_map.mp hmem
  exact claim_C5 wService 0 1 [sampleUser] sampleUser (by decide) (by simp) v hv hvi

/-- C6: within one poll cycle (query succeeded, template file present,
identifiers unique), no per-candidate send failure or mark failure aborts the
cycle: the cycle never raises, every candidate with a usable email gets its
send attempt, a failed send is recorded (`sendFailure` log) and leaves the
candidate unmarked and unchanged, and a failed mark is recorded
(`markFailure` log) and also leaves the record unchanged. -/
theorem claim_C6 (sendEnv : Nat → String → SmtpEnv) (markOk : Nat → Nat → Bool)
    (cycle : Nat) (st : List UserRecord)
    (ht : ∀ e, (sendEnv cycle e).template ≠ none)
    (hnd : (st.map (fun r => r._id)).Nodup) :
    (process_users true sendEnv markOk cycle st).earlyExit = none ∧
    (∀ u ∈ st, pendingQuery u = true → optStrFalsy u.email = false →
       Event.sendAttempt (some u._id) (u.email.getD "") (u.firstName.getD "User") ∈
         (process_users true sendEnv markOk cycle st).events) ∧
    (∀ u ∈ st, pendingQuery u = true → optStrFalsy u.email = false →
       (sendEnv cycle (u.email.getD "")).smtpError ≠ none →
       Event.sendFailure u._id ∈ (process_users true sendEnv markOk cycle st).events ∧
       Event.markUpdate u._id ∉ (process_users true sendEnv markOk cycle st).events ∧
       ∀ v ∈ (process_users true sendEnv markOk cycle st).store, v._id = u._id → v = u) ∧
    (∀ u ∈ st, pendingQuery u = true → optStrFalsy u.email = false →
       (sendEnv cycle (u.email.getD "")).smtpError = none → markOk cycle u._id = false →
       Event.markFailure u._id ∈ (process_users true sendEnv markOk cycle st).events ∧
       Event.markUpdate u._id ∉ (process_users true sendEnv markOk cycle st).events ∧
       ∀ v ∈ (process_users true sendEnv markOk cycle st).store, v._id = u._id → v = u) := by
  refine ⟨process_users_noExit sendEnv markOk cycle st ht, ?_, ?_, ?_⟩
  · intro u hu hp hf
    have hmemf : u ∈ st.filter pendingQuery := List.mem_filter.mpr ⟨hu, hp⟩
    have h0 : (st.filter pendingQuery).length ≠ 0 := by
      intro hzero
      rw [List.length_eq_zero] at hzero
      rw [hzero] at hmemf
      cases hmemf
    rw [process_users_run sendEnv markOk cycle st h0]
    have hw := ((processLoop_visit sendEnv markOk cycle _ st ht hmemf).2 hf).1
    exact List.mem_cons_of_mem _ (List.mem_cons_of_mem _ hw)
  · intro u hu hp hf hsm
    have hmemf : u ∈ st.filter pendingQuery := List.mem_filter.mpr ⟨hu, hp⟩
    have h0 : (st.filter pendingQuery).length ≠ 0 := by
      intro hzero
      rw [List.length_eq_zero] at hzero
      rw [hzero] at hmemf
      cases hmemf
    refine ⟨?_, process_users_leavesUnmarked hnd hu (Or.inl hsm)⟩
    rw [process_users_run sendEnv markOk cycle st h0]
    have hw := ((processLoop_visit sendEnv markOk cycle _ st ht hmemf).2 hf).2.1 hsm
    exact List.mem_cons_of_mem _ (List.mem_cons_of_mem _ hw)
  · intro u hu hp hf hsm hm
    have hmemf : u ∈ st.filter pendingQuery := List.mem_filter.mpr ⟨hu, hp⟩
    have h0 : (st.filter pendingQuery).length ≠ 0 := by
      intro hzero
      rw [List.length_eq_zero] at hzero
      rw [hzero] at hmemf
      cases hmemf
    refine ⟨?_, process_users_leavesUnmarked hnd hu (Or.inr hm)⟩
    rw [process_users_run sendEnv markOk cycle st h0]
    have hw := ((processLoop_visit sendEnv markOk cycle _ st ht hmemf).2 hf).2.2.2 hsm hm
    exact List.mem_cons_of_mem _ (List.mem_cons_of_mem _ hw)

/-- C6 witness: the healthy one-user cycle completes and performs the send. -/
theorem claim_C6_witness :
    (([sampleUser].map (fun r => r._id)).Nodup) ∧
    (process_users true (fun _ _ => envOK) (fun _ _ => true) 0 [sampleUser]).earlyExit =
      none ∧
    Event.sendAttempt (some 1) "ada@example.com" "Ada" ∈
      (process_users true (fun _ _ => envOK) (fun _ _ => true) 0 [sampleUser]).events :=
  ⟨by decide,
   (claim_C6 (fun _ _ => envOK) (fun _ _ => true) 0 [sampleUser]
     (fun _ h => Option.noConfusion h) (by decide)).1,
   (claim_C6 (fun _ _ => envOK) (fun _ _ => true) 0 [sampleUser]
     (fun _ h => Option.noConfusion h) (by decide)).2.1 sampleUser (by simp) rfl rfl⟩

/-- C7: a `--test --test-email addr` run performs exactly one send attempt,
to exactly `addr` with the placeholder name `"Test User"`, and touches the
user store not at all (no query, no update; the collection is returned
unchanged). -/
theorem claim_C7 (cfg : Config) (args : Args) (w : World) (st : List UserRecord)
    (addr : String) (hv : validateEnv cfg = none) (ht : args.test = true)
    (he : args.test_email = some addr) :
    (programRun cfg args w st).events = [Event.sendAttempt none addr "Test User"] ∧
    (∀ e ∈ (programRun cfg args w st).events, e.isStoreEvent = false) ∧
    (programRun cfg args w st).store = st := by
  have hrun : (programRun cfg args w st).events =
      [Event.sendAttempt none addr "Test User"] ∧
      (programRun cfg args w st).store = st := by
    unfold programRun
    rw [hv, ht, he]
    cases hs : send_test_email (w.sendEnv 0 addr) addr with
    | exit c => simp [hs]
    | ret b => simp [hs]
  refine ⟨hrun.1, ?_, hrun.2⟩
  intro e he2
  rw [hrun.1] at he2
  rcases List.mem_singleton.mp he2 with rfl
  rfl

/-- C7 witness: the complete test-mode run on concrete data. -/
theorem claim_C7_witness :
    validateEnv cfgGood = none ∧
    (programRun cfgGood argsTest wService []).events =
      [Event.sendAttempt none "a@example.com" "Test User"] :=
  ⟨rfl, (claim_C7 cfgGood argsTest wService [] "a@example.com" rfl rfl rfl).1⟩

/-- C8: rendering the (spec-modelled) template with first name `"Ada"` and
year `2024` yields the template's HTML with the two substitutions performed
and no literal `\x7bfirst_name\x7d` or `\x7byear\x7d` token left. -/
theorem claim_C8 :
    renderTemplate welcome_email_template "Ada" 2024 =
      "<html><body><p>Hi Ada, welcome to WildVision!</p><p>&copy; 2024 WildVision</p></body></html>" ∧
    strContains (renderTemplate welcome_email_template "Ada" 2024) "Ada" = true ∧
    strContains (renderTemplate welcome_email_template "Ada" 2024) "2024" = true ∧
    strContains (renderTemplate welcome_email_template "Ada" 2024) "{first_name}" = false ∧
    strContains (renderTemplate welcome_email_template "Ada" 2024) "{year}" = false :=
  ⟨by decide, by decide, by decide, by decide, by decide⟩

/-- C9 counterexample: in test mode with a failing SMTP session the send
attempt fails (`send_welcome_email` returns `False`), yet `main` just logs
and falls off the end, so the process exits 0 — contradicting "0 exactly
when ... a successful test send". -/
theorem claim_C9_counterexample :
    send_welcome_email (wSendFail.sendEnv 0 "a@example.com") "a@example.com" "Test User" =
      CallResult.ret false ∧
    (programRun cfgGood argsTest wSendFail []).exitCode = 0 :=
  ⟨rfl, rfl⟩

/-- The service loop exits 0 exactly when the fate is a graceful interrupt
and no cycle up to it raised `SystemExit`. -/
theorem serviceMode_exit_zero (w : World) (st : List UserRecord) :
    (serviceMode w st).exitCode = 0 ↔
      ∃ k, w.fate = LoopFate.interrupted k ∧
        (runCycles w 0 (k + 1) st).earlyExit = none := by
  cases hfate : w.fate with
  | interrupted k =>
    simp only [serviceMode, hfate]
    cases hx : (runCycles w 0 (k + 1) st).earlyExit with
    | none =>
      constructor
      · intro _
        exact ⟨k, rfl, hx⟩
      · intro _
        simp [hx]
    | some code =>
      have hc1 : code = 1 := runCycles_exit_one hx
      subst hc1
      simp [hx]
  | unexpected k =>
    simp only [serviceMode, hfate]
    cases hx : (runCycles w 0 k st).earlyExit with
    | none => simp [hx]
    | some code =>
      have hc1 : code = 1 := runCycles_exit_one hx
      subst hc1
      simp [hx]

/-- C9 amended: the exit code is 0 exactly when the run is a test-mode run
that completed its single send attempt (whether the send succeeded or
failed; only a missing template file prevents completion), or a service-mode
run ended by a graceful interrupt with no cycle having raised `SystemExit`
(no query failure, no missing template).  Every other run — configuration
error, missing `--test-email`, connection failure, mid-loop query or
template failure, unexpected top-level error — exits 1. -/
theorem claim_C9 (cfg : Config) (args : Args) (w : World) (st : List UserRecord) :
    (programRun cfg args w st).exitCode = 0 ↔
      (validateEnv cfg = none ∧
       ((args.test = true ∧ ∃ addr, args.test_email = some addr ∧
           (w.sendEnv 0 addr).template ≠ none) ∨
        (args.test = false ∧ w.connectOk = true ∧
           ∃ k, w.fate = LoopFate.interrupted k ∧
             (runCycles w 0 (k + 1) st).earlyExit = none))) := by
  unfold programRun
  cases hv : validateEnv cfg with
  | some code =>
    have hc1 : code = 1 := validateEnv_exit_one hv
    subst hc1
    simp
  | none =>
    cases htest : args.test with
    | true =>
      cases hte : args.test_email with
      | none => simp
      | some addr =>
        cases hs : send_test_email (w.sendEnv 0 addr) addr with
        | exit c =>
          have hc1 : c = 1 := send_exit_one hs
          have htm : (w.sendEnv 0 addr).template = none := by
            by_contra hnn
            rw [send_test_email] at hs
            rw [send_welcome_email_ret _ _ _ hnn] at hs
            exact CallResult.noConfusion hs
          subst hc1
          simp [hs, htm]
        | ret b =>
          have htm : (w.sendEnv 0 addr).template ≠ none := by
            intro hnn
            rw [send_test_email] at hs
            simp [send_welcome_email, load_email_template, hnn] at hs
          simp [hs, htm]
    | false =>
      cases hconn : w.connectOk with
      | false => simp
      | true =>
        simp only [Bool.false_eq_true, if_false, if_true]
        rw [serviceMode_exit_zero w st]
        simp

/-- C10: whatever the mode, if `MONGODB_URI`, `GMAIL_USER` or
`GMAIL_APP_PASSWORD` is unset, the module-level validation exits the process
with code 1 before any action: no event is performed and the collection is
untouched. -/
theorem claim_C10 (cfg : Config) (args : Args) (w : World) (st : List UserRecord)
    (h : cfg.MONGODB_URI = none ∨ cfg.GMAIL_USER = none ∨
      cfg.GMAIL_APP_PASSWORD = none) :
    programRun cfg args w st = ⟨1, [], st⟩ := by
  have hv : validateEnv cfg = some 1 := by
    rcases h with h | h | h
    · simp [validateEnv, h, optStrFalsy]
    · by_cases h1 : optStrFalsy cfg.MONGODB_URI = true
      · simp [validateEnv, h1]
      · simp [validateEnv, h1, h, optStrFalsy]
    · by_cases h1 : optStrFalsy cfg.MONGODB_URI = true
      · simp [validateEnv, h1]
      · simp [validateEnv, h1, h, optStrFalsy]
  unfold programRun
  rw [hv]

/-- C10 witness: a test-mode run with `MONGODB_URI` unset exits 1 having done
nothing. -/
theorem claim_C10_witness :
    programRun cfgNoURI argsTest wService [] = ⟨1, [], []⟩ :=
  claim_C10 cfgNoURI argsTest wService [] (Or.inl rfl)

end EmailSend
